import Mathlib

/-!
Verification of the blog-post CRUD service in
`src/containerized-app/app/main.py` (FastAPI + SQLite).

Shallow embedding choices:
- The SQLite `posts` table is a `List Post` kept in insertion (rowid) order,
  together with the `AUTOINCREMENT` counter `nextId`.
- `CURRENT_TIMESTAMP` has second resolution, so distinct statements may read
  equal timestamps.  Each handler therefore takes the wall-clock instant
  `t : Nat` at which its statements run as an explicit parameter; nothing
  forces two calls to carry distinct instants, and ties between timestamps
  are representable.  The environment is only assumed (where a theorem needs
  it, as an explicit hypothesis) to never hand a handler an instant earlier
  than a stored timestamp.
- `ORDER BY created_at DESC` leaves the relative order of rows with equal
  `created_at` unspecified; the embedding fixes one concrete choice, a stable
  sort that keeps equal-key rows in table-scan (rowid) order.
- Each route handler becomes a pure function of the store state; HTTP error
  responses become `Except ApiError`.  `NotFound` stands for 404,
  `InvalidArgument` for the 400 of `update_post` and for the framework-level
  rejection of a request body missing a required field, `Internal` for 500.
- Pydantic model parsing is embedded explicitly: `PostCreate` fields are
  required (`title : str` etc.), `PostUpdate` fields are `Optional[str] = None`
  so an explicit JSON `null` and an absent key both parse to `none`.
-/

/-- A row of the `posts` table / the `Post` response model (main.py lines 29-35).
Timestamps are wall-clock instants (`Nat`, second resolution: equal values are
possible across statements). -/
structure Post where
  id : Nat
  title : String
  content : String
  author : String
  created_at : Nat
  updated_at : Nat
deriving Repr, DecidableEq

/-- The persistent store: the `posts` table in rowid order and the
`AUTOINCREMENT` counter. -/
structure DB where
  rows : List Post
  nextId : Nat
deriving Repr, DecidableEq

/-- Error outcomes of the route handlers: 404, 400/422 and 500. -/
inductive ApiError where
  | NotFound
  | InvalidArgument
  | Internal
deriving Repr, DecidableEq

/-- The `PostCreate` request model (main.py lines 19-22): all three fields
required strings. -/
structure PostCreate where
  title : String
  content : String
  author : String
deriving Repr, DecidableEq

/-- The `PostUpdate` request model (main.py lines 24-27): each field
`Optional[str] = None`. -/
structure PostUpdate where
  title : Option String
  content : Option String
  author : Option String
deriving Repr, DecidableEq

/-- One field of an inbound JSON object: the key can be absent, bound to
`null`, or bound to a string. -/
inductive JsonField where
  | absent
  | null
  | str (s : String)
deriving Repr, DecidableEq

/-- Pydantic validation of one required `str` field of `PostCreate`: the key
must be present and bound to a string (a missing or `null` field fails
framework validation). -/
def parseReqField : JsonField → Except ApiError String
  | .str s => .ok s
  | _ => .error .InvalidArgument

/-- Pydantic validation of the `PostCreate` body: every field is a required
`str`; no emptiness check is performed. -/
def parsePostCreate (t c a : JsonField) : Except ApiError PostCreate := do
  let t ← parseReqField t
  let c ← parseReqField c
  let a ← parseReqField a
  return ⟨t, c, a⟩

/-- Pydantic validation of one `Optional[str] = None` field of `PostUpdate`:
an absent key and an explicit `null` both become `none`. -/
def parseOptField : JsonField → Option String
  | .absent => none
  | .null => none
  | .str s => some s

/-- Pydantic validation of the `PostUpdate` body (never fails). -/
def parsePostUpdate (t c a : JsonField) : PostUpdate :=
  ⟨parseOptField t, parseOptField c, parseOptField a⟩

/-- `SELECT ... FROM posts WHERE id = ?`: first row whose `id` matches. -/
def findById (rows : List Post) (post_id : Nat) : Option Post :=
  rows.find? (fun p => p.id == post_id)

/-- `INSERT INTO posts (title, content, author) VALUES (?, ?, ?)` executed at
instant `t`: the store assigns `id = nextId` and both timestamps default to
`CURRENT_TIMESTAMP`, i.e. `t`. -/
def insertPost (db : DB) (title content author : String) (t : Nat) : Post × DB :=
  let p : Post := ⟨db.nextId, title, content, author, t, t⟩
  (p, ⟨db.rows ++ [p], db.nextId + 1⟩)

/-- Insertion sort step for `ORDER BY created_at DESC`.  Rows with equal
`created_at` keep their scan order (the inserted row comes from earlier in
the scan than the already-sorted ones, so on a tie it goes in front). -/
def insertDesc (p : Post) : List Post → List Post
  | [] => [p]
  | q :: qs => if q.created_at ≤ p.created_at then p :: q :: qs else q :: insertDesc p qs

/-- `ORDER BY created_at DESC` over the whole table (stable in scan order on
equal keys; SQLite leaves the tie order unspecified and this is one concrete
choice consistent with the scan). -/
def sortByCreatedDesc : List Post → List Post
  | [] => []
  | p :: ps => insertDesc p (sortByCreatedDesc ps)

/-- Handler `GET /posts` (main.py lines 107-130): all rows ordered by
`created_at` descending. -/
def get_posts (db : DB) : List Post :=
  sortByCreatedDesc db.rows

/-- Handler `GET /posts/{post_id}` (main.py lines 137-163): the matching row,
or 404 when none matches. -/
def get_post (db : DB) (post_id : Nat) : Except ApiError Post :=
  match findById db.rows post_id with
  | some p => .ok p
  | none => .error .NotFound

/-- Handler `POST /posts` (main.py lines 172-201) at instant `t`: insert the
validated body, then re-read the created row by its `lastrowid` and return
it. -/
def create_post (db : DB) (post : PostCreate) (t : Nat) :
    Except ApiError (Post × DB) :=
  let (p, db2) := insertPost db post.title post.content post.author t
  match findById db2.rows p.id with
  | some q => .ok (q, db2)
  | none => .error .Internal

/-- The `SET` clause of the dynamic `UPDATE`: each supplied field takes its
new value, the others keep the stored value, and
`updated_at = CURRENT_TIMESTAMP`. -/
def applyUpdate (p : Post) (u : PostUpdate) (now : Nat) : Post :=
  { p with
    title := u.title.getD p.title
    content := u.content.getD p.content
    author := u.author.getD p.author
    updated_at := now }

/-- Handler `PUT /posts/{post_id}` (main.py lines 208-266) at instant `t`:
check existence (404), then that at least one field was supplied (400), then
run the dynamic `UPDATE` and re-read the row. -/
def update_post (db : DB) (post_id : Nat) (u : PostUpdate) (t : Nat) :
    Except ApiError (Post × DB) :=
  match findById db.rows post_id with
  | none => .error .NotFound
  | some _ =>
    if u.title = none ∧ u.content = none ∧ u.author = none then
      .error .InvalidArgument
    else
      let rows2 := db.rows.map
        (fun p => if p.id == post_id then applyUpdate p u t else p)
      let db2 : DB := ⟨rows2, db.nextId⟩
      match findById db2.rows post_id with
      | some q => .ok (q, db2)
      | none => .error .Internal

/-- Handler `DELETE /posts/{post_id}` (main.py lines 275-290):
`DELETE FROM posts WHERE id = ?`, then 404 when `rowcount == 0`. -/
def delete_post (db : DB) (post_id : Nat) : Except ApiError DB :=
  let rows2 := db.rows.filter (fun p => p.id != post_id)
  if rows2.length = db.rows.length then .error .NotFound
  else .ok ⟨rows2, db.nextId⟩

/-- The three seed rows of `init_db` (main.py lines 68-72). -/
def sample_posts : List (String × String × String) :=
  [("Welcome to the Blog API", "This is your first blog post created automatically!", "System"),
   ("Docker is Awesome", "Learning to containerize applications with Docker.", "DevOps Learner"),
   ("AWS Deployment", "Taking our containerized app to the cloud!", "Cloud Engineer")]

/-- `executemany` of the seed `INSERT` (main.py lines 74-77): the statement
runs once per seed triple, all within one call at instant `t`. -/
def insertMany (db : DB) (t : Nat) : List (String × String × String) → DB
  | [] => db
  | (ti, c, a) :: rest => insertMany (insertPost db ti c a t).2 t rest

/-- `init_db` (main.py lines 48-79) run at instant `t`: create the table if
absent, and insert the seed rows exactly when the table is empty. -/
def init_db (db : DB) (t : Nat) : DB :=
  if db.rows.length = 0 then insertMany db t sample_posts else db

/-- A store fresh from `CREATE TABLE`: no rows, `AUTOINCREMENT` starts at 1. -/
def freshDB : DB :=
  ⟨[], 1⟩

/-- The result of `ORDER BY created_at DESC` is sorted: each row's
`created_at` is at most that of any earlier row. -/
def SortedDesc (l : List Post) : Prop :=
  List.Pairwise (fun a b => b.created_at ≤ a.created_at) l

instance (l : List Post) : Decidable (SortedDesc l) := by
  unfold SortedDesc
  infer_instance

/-! ## Helper lemmas -/

theorem applyUpdate_id (p : Post) (u : PostUpdate) (now : Nat) :
    (applyUpdate p u now).id = p.id := rfl

theorem applyUpdate_created_at (p : Post) (u : PostUpdate) (now : Nat) :
    (applyUpdate p u now).created_at = p.created_at := rfl

theorem insertDesc_perm (p : Post) (l : List Post) :
    List.Perm (insertDesc p l) (p :: l) := by
  induction l with
  | nil => simp [insertDesc]
  | cons q qs ih =>
    simp only [insertDesc]
    split
    · exact List.Perm.refl _
    · exact (ih.cons q).trans (List.Perm.swap p q qs)

theorem sortByCreatedDesc_perm (l : List Post) :
    List.Perm (sortByCreatedDesc l) l := by
  induction l with
  | nil => simp [sortByCreatedDesc]
  | cons p ps ih =>
    exact (insertDesc_perm p (sortByCreatedDesc ps)).trans (ih.cons p)

theorem insertDesc_sorted (p : Post) (l : List Post) (h : SortedDesc l) :
    SortedDesc (insertDesc p l) := by
  induction l with
  | nil => simp [insertDesc, SortedDesc]
  | cons q qs ih =>
    rcases List.pairwise_cons.mp h with ⟨hq, hqs⟩
    simp only [insertDesc]
    split
    case isTrue hle =>
      refine List.pairwise_cons.mpr ⟨?_, h⟩
      intro x hx
      rcases List.mem_cons.mp hx with rfl | hx2
      · exact hle
      · exact le_trans (hq x hx2) hle
    case isFalse hgt =>
      push_neg at hgt
      refine List.pairwise_cons.mpr ⟨?_, ih hqs⟩
      intro x hx
      rcases List.mem_cons.mp ((insertDesc_perm p qs).mem_iff.mp hx) with rfl | hx2
      · exact le_of_lt hgt
      · exact hq x hx2

theorem sortByCreatedDesc_sorted (l : List Post) :
    SortedDesc (sortByCreatedDesc l) := by
  induction l with
  | nil => simp [sortByCreatedDesc, SortedDesc]
  | cons p ps ih => exact insertDesc_sorted p _ ih

/-- A row whose `created_at` is strictly above every other row's comes first
after `ORDER BY created_at DESC` (no appeal to the tie order: the maximum is
strict). -/
theorem sortByCreatedDesc_head_of_max (l : List Post) (p : Post) (hp : p ∈ l)
    (hmax : ∀ r ∈ l, r ≠ p → r.created_at < p.created_at) :
    (sortByCreatedDesc l).head? = some p := by
  have hperm := sortByCreatedDesc_perm l
  have hsorted := sortByCreatedDesc_sorted l
  have hpmem : p ∈ sortByCreatedDesc l := hperm.mem_iff.mpr hp
  cases hsl : sortByCreatedDesc l with
  | nil =>
    rw [hsl] at hpmem
    cases hpmem
  | cons h t =>
    rw [hsl] at hpmem hsorted hperm
    have hh : h ∈ l := hperm.mem_iff.mp (List.mem_cons_self h t)
    by_cases heq : h = p
    · simp [heq]
    · exfalso
      have hlt := hmax h hh heq
      rcases List.mem_cons.mp hpmem with rfl | hpt
      · exact heq rfl
      · have hle := (List.pairwise_cons.mp hsorted).1 p hpt
        omega

theorem findById_eq_none (rows : List Post) (i : Nat) :
    findById rows i = none ↔ ∀ r ∈ rows, r.id ≠ i := by
  simp [findById, List.find?_eq_none]

/-- Looking up a freshly appended row whose id is new finds exactly it. -/
theorem findById_append_new (rows : List Post) (p : Post)
    (h : ∀ r ∈ rows, r.id ≠ p.id) :
    findById (rows ++ [p]) p.id = some p := by
  induction rows with
  | nil => simp [findById]
  | cons r rs ih =>
    have hr : r.id ≠ p.id := h r (List.mem_cons_self r rs)
    have hrs : ∀ x ∈ rs, x.id ≠ p.id := fun x hx => h x (List.mem_cons_of_mem r hx)
    simpa [findById, List.find?_cons, hr] using ih hrs

/-- Lookup after `UPDATE ... WHERE id = ?` finds the updated first match. -/
theorem findById_map_update (rows : List Post) (i : Nat) (u : PostUpdate)
    (now : Nat) (p : Post) (h : findById rows i = some p) :
    findById (rows.map fun r => if r.id == i then applyUpdate r u now else r) i
      = some (applyUpdate p u now) := by
  induction rows with
  | nil => simp [findById] at h
  | cons r rs ih =>
    by_cases hr : r.id = i
    · have hp : p = r := by
        simp [findById, List.find?_cons, hr] at h
        exact h.symm
      subst hp
      simp [findById, List.find?_cons, hr, applyUpdate_id]
    · have h2 : findById rs i = some p := by
        simpa [findById, List.find?_cons, hr] using h
      simpa [findById, List.find?_cons, hr] using ih h2

/-- Success shape of the update handler: with an existing row and a non-empty
field mask, the first matching row is rewritten and returned. -/
theorem update_post_ok (db : DB) (i : Nat) (u : PostUpdate) (t : Nat) (p : Post)
    (hfind : findById db.rows i = some p)
    (hne : ¬(u.title = none ∧ u.content = none ∧ u.author = none)) :
    update_post db i u t =
      Except.ok (applyUpdate p u t,
        ⟨db.rows.map fun r => if r.id == i then applyUpdate r u t else r,
         db.nextId⟩) := by
  unfold update_post
  rw [hfind]
  simp only [if_neg hne]
  rw [findById_map_update db.rows i u t p hfind]

/-- Failure shape of the update handler on an empty field mask. -/
theorem update_post_empty (db : DB) (i : Nat) (u : PostUpdate) (t : Nat) (p : Post)
    (hfind : findById db.rows i = some p)
    (hempty : u.title = none ∧ u.content = none ∧ u.author = none) :
    update_post db i u t = Except.error ApiError.InvalidArgument := by
  unfold update_post
  rw [hfind]
  simp only [if_pos hempty]

/-- Success shape of the create handler: the new row gets `id = nextId`, both
timestamps the instant of the call, and is appended; the re-read returns it. -/
theorem create_post_ok (db : DB) (pc : PostCreate) (t : Nat)
    (hid : ∀ r ∈ db.rows, r.id < db.nextId) :
    create_post db pc t =
      Except.ok (⟨db.nextId, pc.title, pc.content, pc.author, t, t⟩,
        ⟨db.rows ++ [⟨db.nextId, pc.title, pc.content, pc.author, t, t⟩],
         db.nextId + 1⟩) := by
  unfold create_post insertPost
  have h : findById
      (db.rows ++ [⟨db.nextId, pc.title, pc.content, pc.author, t, t⟩])
      db.nextId = some ⟨db.nextId, pc.title, pc.content, pc.author, t, t⟩ :=
    findById_append_new _ _ (fun r hr => Nat.ne_of_lt (hid r hr))
  simp only []
  rw [h]

/-! ## Claim theorems -/

/-- Claim C1, counterexample: the claim asserts no row is ever persisted with
an empty `title`, `content` or `author`.  But `PostCreate` only requires the
fields to be present strings: a body with `title` bound to the empty string
passes validation, and the create handler persists a row whose `title` is
empty. -/
theorem c1_counterexample :
    parsePostCreate (JsonField.str "") (JsonField.str "c") (JsonField.str "a")
      = Except.ok ⟨"", "c", "a"⟩ ∧
    create_post freshDB ⟨"", "c", "a"⟩ 0
      = Except.ok (⟨1, "", "c", "a", 0, 0⟩, ⟨[⟨1, "", "c", "a", 0, 0⟩], 2⟩) ∧
    (⟨1, "", "c", "a", 0, 0⟩ : Post) ∈ (⟨[⟨1, "", "c", "a", 0, 0⟩], 2⟩ : DB).rows ∧
    (⟨1, "", "c", "a", 0, 0⟩ : Post).title = "" := by
  refine ⟨rfl, rfl, ?_, rfl⟩
  exact List.mem_singleton.mpr rfl

/-- Claim C1, amended: the create operation requires `title`, `content` and
`author` to all be present; the absence of any of the three is rejected by
request-model validation before the repository insert is invoked.
Non-emptiness is not enforced: empty strings are accepted and persisted as
supplied. -/
theorem c1_create_requires_presence (t c a : JsonField)
    (h : t = JsonField.absent ∨ c = JsonField.absent ∨ a = JsonField.absent) :
    parsePostCreate t c a = Except.error ApiError.InvalidArgument := by
  rcases h with rfl | rfl | rfl
  · rfl
  · cases t <;> rfl
  · cases t <;> cases c <;> rfl

/-- Claim C1 witness. -/
theorem c1_witness :
    parsePostCreate JsonField.absent (JsonField.str "c") (JsonField.str "a")
      = Except.error ApiError.InvalidArgument :=
  c1_create_requires_presence _ _ _ (Or.inl rfl)

/-- Claim C2: for every existing id, an update supplying none of the three
fields signals `InvalidArgument` (HTTP 400) at every instant.  The error is
raised before the `UPDATE` statement is built, so the handler yields no new
store state and the stored post is unchanged. -/
theorem c2_update_empty_invalid (db : DB) (post_id : Nat) (t : Nat) (p : Post)
    (h : findById db.rows post_id = some p) :
    update_post db post_id ⟨none, none, none⟩ t = Except.error ApiError.InvalidArgument ∧
    ∀ q db2, update_post db post_id ⟨none, none, none⟩ t ≠ Except.ok (q, db2) := by
  have he := update_post_empty db post_id ⟨none, none, none⟩ t p h ⟨rfl, rfl, rfl⟩
  exact ⟨he, fun q db2 hq => by rw [he] at hq; cases hq⟩

/-- Claim C2 witness. -/
theorem c2_witness :
    update_post (init_db freshDB 0) 1 ⟨none, none, none⟩ 7
      = Except.error ApiError.InvalidArgument :=
  (c2_update_empty_invalid (init_db freshDB 0) 1 7
    ⟨1, "Welcome to the Blog API",
     "This is your first blog post created automatically!", "System", 0, 0⟩
    (by decide)).1

/-- Claim C6: for every id with no matching row, `get_post`, `update_post`
and `delete_post` each signal `NotFound` (HTTP 404); each handler fails before
producing a new store state, so the store is unchanged. -/
theorem c6_missing_id_not_found (db : DB) (post_id : Nat) (u : PostUpdate) (t : Nat)
    (h : findById db.rows post_id = none) :
    get_post db post_id = Except.error ApiError.NotFound ∧
    update_post db post_id u t = Except.error ApiError.NotFound ∧
    delete_post db post_id = Except.error ApiError.NotFound := by
  have hall : ∀ r ∈ db.rows, r.id ≠ post_id := (findById_eq_none _ _).mp h
  refine ⟨?_, ?_, ?_⟩
  · unfold get_post
    rw [h]
  · unfold update_post
    rw [h]
  · unfold delete_post
    have hfilter : db.rows.filter (fun p => p.id != post_id) = db.rows := by
      rw [List.filter_eq_self]
      intro a ha
      simpa using hall a ha
    simp [hfilter]

/-- Claim C6 witness. -/
theorem c6_witness :
    get_post (init_db freshDB 0) 99 = Except.error ApiError.NotFound ∧
    update_post (init_db freshDB 0) 99 ⟨some "x", none, none⟩ 3
      = Except.error ApiError.NotFound ∧
    delete_post (init_db freshDB 0) 99 = Except.error ApiError.NotFound :=
  c6_missing_id_not_found (init_db freshDB 0) 99 ⟨some "x", none, none⟩ 3 (by decide)

/-- Claim C9: in the update handler the existence check precedes field
validation: a missing id yields `NotFound` (404) for every field set, the
empty one included, and `InvalidArgument` (400) is only ever signalled when a
matching row exists. -/
theorem c9_existence_before_validation (db : DB) (post_id : Nat) :
    (findById db.rows post_id = none →
      ∀ (u : PostUpdate) (t : Nat),
        update_post db post_id u t = Except.error ApiError.NotFound) ∧
    (∀ (u : PostUpdate) (t : Nat),
      update_post db post_id u t = Except.error ApiError.InvalidArgument →
      ∃ p, findById db.rows post_id = some p) := by
  constructor
  · intro h u t
    unfold update_post
    rw [h]
  · intro u t h
    cases hf : findById db.rows post_id with
    | none =>
      unfold update_post at h
      rw [hf] at h
      cases h
    | some p => exact ⟨p, rfl⟩

/-- Claim C9 witness: on the seeded store with an absent id 99, the empty
update is answered with `NotFound`, not `InvalidArgument`. -/
theorem c9_witness :
    update_post (init_db freshDB 0) 99 ⟨none, none, none⟩ 4
      = Except.error ApiError.NotFound :=
  (c9_existence_before_validation (init_db freshDB 0) 99).1 (by decide)
    ⟨none, none, none⟩ 4

/-- Claim C3: a successful update of an existing post with at least one
supplied field changes exactly the supplied fields; every unsupplied field of
title/content/author, as well as `id` and `created_at`, keeps its pre-update
value, both in the returned Post and in the stored row, and every row with a
different id is still stored unchanged. -/
theorem c3_update_frame (db : DB) (post_id : Nat) (u : PostUpdate) (t : Nat)
    (p : Post)
    (hfind : findById db.rows post_id = some p)
    (hne : ¬(u.title = none ∧ u.content = none ∧ u.author = none)) :
    ∃ q db2, update_post db post_id u t = Except.ok (q, db2) ∧
      q.id = p.id ∧
      q.created_at = p.created_at ∧
      q.title = u.title.getD p.title ∧
      q.content = u.content.getD p.content ∧
      q.author = u.author.getD p.author ∧
      findById db2.rows post_id = some q ∧
      db2.nextId = db.nextId ∧
      ∀ r ∈ db.rows, r.id ≠ post_id → r ∈ db2.rows := by
  refine ⟨applyUpdate p u t,
    ⟨db.rows.map fun r => if r.id == post_id then applyUpdate r u t else r,
     db.nextId⟩,
    update_post_ok db post_id u t p hfind hne,
    rfl, rfl, rfl, rfl, rfl,
    findById_map_update db.rows post_id u t p hfind, rfl, ?_⟩
  intro r hr hrne
  have hfix : (if r.id == post_id then applyUpdate r u t else r) = r := by
    simp [hrne]
  exact hfix ▸ List.mem_map_of_mem _ hr

/-- Claim C3 witness: update only the title of seeded post 2 at instant 9. -/
theorem c3_witness :
    ∃ q db2,
      update_post (init_db freshDB 0) 2 ⟨some "T2", none, none⟩ 9
        = Except.ok (q, db2) ∧
      q.id = (2 : Nat) ∧
      q.created_at = (0 : Nat) ∧
      q.title = (some "T2").getD "Docker is Awesome" ∧
      q.content = (none : Option String).getD
        "Learning to containerize applications with Docker." ∧
      q.author = (none : Option String).getD "DevOps Learner" ∧
      findById db2.rows 2 = some q ∧
      db2.nextId = (init_db freshDB 0).nextId ∧
      ∀ r ∈ (init_db freshDB 0).rows, r.id ≠ 2 → r ∈ db2.rows :=
  c3_update_frame (init_db freshDB 0) 2 ⟨some "T2", none, none⟩ 9
    ⟨2, "Docker is Awesome", "Learning to containerize applications with Docker.",
     "DevOps Learner", 0, 0⟩
    (by decide) (by decide)

/-- Claim C5, counterexample: the claim asserts `updated_at` strictly
increases on every successful update.  `CURRENT_TIMESTAMP` has second
resolution, so an update executed in the same second as the row's previous
write reads the same timestamp: updating seeded post 1 (stored
`updated_at = 0`) at instant 0 succeeds and returns `updated_at = 0`,
equal to — not strictly greater than — the pre-update value. -/
theorem c5_counterexample :
    findById (init_db freshDB 0).rows 1
      = some ⟨1, "Welcome to the Blog API",
          "This is your first blog post created automatically!", "System", 0, 0⟩ ∧
    update_post (init_db freshDB 0) 1 ⟨some "T2", none, none⟩ 0
      = Except.ok
          (⟨1, "T2", "This is your first blog post created automatically!",
            "System", 0, 0⟩,
           ⟨[⟨1, "T2", "This is your first blog post created automatically!",
              "System", 0, 0⟩,
             ⟨2, "Docker is Awesome",
              "Learning to containerize applications with Docker.",
              "DevOps Learner", 0, 0⟩,
             ⟨3, "AWS Deployment", "Taking our containerized app to the cloud!",
              "Cloud Engineer", 0, 0⟩], 4⟩) ∧
    ¬ ((⟨1, "Welcome to the Blog API",
          "This is your first blog post created automatically!",
          "System", 0, 0⟩ : Post).updated_at
        < (⟨1, "T2", "This is your first blog post created automatically!",
            "System", 0, 0⟩ : Post).updated_at) := by
  refine ⟨by decide, by rfl, by decide⟩

/-- Claim C5, amended: a successful update (which requires at least one
supplied field) returns a Post whose `updated_at` is the update's
`CURRENT_TIMESTAMP`; provided the clock never runs behind the stored
timestamps, this is greater than or equal to the stored post's pre-update
`updated_at` — equality occurs exactly when the update shares the second of
the previous write — and strictly greater whenever the update's instant is
strictly later than the pre-update value. -/
theorem c5_updated_at_mono (db : DB) (post_id : Nat) (u : PostUpdate) (t : Nat)
    (p q : Post) (db2 : DB)
    (hts : ∀ r ∈ db.rows, r.updated_at ≤ t)
    (hfind : findById db.rows post_id = some p)
    (hok : update_post db post_id u t = Except.ok (q, db2)) :
    q.updated_at = t ∧
    p.updated_at ≤ q.updated_at ∧
    (p.updated_at < t → p.updated_at < q.updated_at) := by
  by_cases hempty : u.title = none ∧ u.content = none ∧ u.author = none
  · rw [update_post_empty db post_id u t p hfind hempty] at hok
    cases hok
  · rw [update_post_ok db post_id u t p hfind hempty] at hok
    have hq : q = applyUpdate p u t := by
      cases hok
      rfl
    have hp : p ∈ db.rows := List.mem_of_find?_eq_some hfind
    rw [hq]
    exact ⟨rfl, hts p hp, fun h => h⟩

/-- Claim C5 witness: updating seeded post 2 at instant 9. -/
theorem c5_witness :
    ((⟨2, "T2", "Learning to containerize applications with Docker.",
        "DevOps Learner", 0, 9⟩ : Post).updated_at = (9 : Nat)) ∧
    ((⟨2, "Docker is Awesome",
        "Learning to containerize applications with Docker.",
        "DevOps Learner", 0, 0⟩ : Post).updated_at
      ≤ (⟨2, "T2", "Learning to containerize applications with Docker.",
          "DevOps Learner", 0, 9⟩ : Post).updated_at) ∧
    ((⟨2, "Docker is Awesome",
        "Learning to containerize applications with Docker.",
        "DevOps Learner", 0, 0⟩ : Post).updated_at < 9 →
      (⟨2, "Docker is Awesome",
          "Learning to containerize applications with Docker.",
          "DevOps Learner", 0, 0⟩ : Post).updated_at
        < (⟨2, "T2", "Learning to containerize applications with Docker.",
            "DevOps Learner", 0, 9⟩ : Post).updated_at) :=
  c5_updated_at_mono (init_db freshDB 0) 2 ⟨some "T2", none, none⟩ 9
    ⟨2, "Docker is Awesome", "Learning to containerize applications with Docker.",
     "DevOps Learner", 0, 0⟩
    ⟨2, "T2", "Learning to containerize applications with Docker.",
     "DevOps Learner", 0, 9⟩
    ⟨[⟨1, "Welcome to the Blog API",
       "This is your first blog post created automatically!", "System", 0, 0⟩,
      ⟨2, "T2", "Learning to containerize applications with Docker.",
       "DevOps Learner", 0, 9⟩,
      ⟨3, "AWS Deployment", "Taking our containerized app to the cloud!",
       "Cloud Engineer", 0, 0⟩], 4⟩
    (by decide) (by decide) (by rfl)

/-- Claim C7: create followed by getById on the returned id yields exactly
the Post returned by create (same id and timestamps), and its
title/content/author equal the supplied values. -/
theorem c7_create_roundtrip (db : DB) (pc : PostCreate) (t : Nat) (q : Post)
    (db2 : DB)
    (hid : ∀ r ∈ db.rows, r.id < db.nextId)
    (hok : create_post db pc t = Except.ok (q, db2)) :
    get_post db2 q.id = Except.ok q ∧
    q.title = pc.title ∧ q.content = pc.content ∧ q.author = pc.author := by
  rw [create_post_ok db pc t hid] at hok
  have hq : q = ⟨db.nextId, pc.title, pc.content, pc.author, t, t⟩ := by
    cases hok
    rfl
  have hdb2 : db2 =
      ⟨db.rows ++ [⟨db.nextId, pc.title, pc.content, pc.author, t, t⟩],
       db.nextId + 1⟩ := by
    cases hok
    rfl
  subst hq hdb2
  refine ⟨?_, rfl, rfl, rfl⟩
  unfold get_post
  rw [findById_append_new _ _ (fun r hr => Nat.ne_of_lt (hid r hr))]

/-- Claim C7 witness: create on the seeded store at instant 8, then read the
new id. -/
theorem c7_witness :
    get_post ⟨(init_db freshDB 0).rows ++ [⟨4, "T", "C", "A", 8, 8⟩], 5⟩ (4 : Nat)
      = Except.ok ⟨4, "T", "C", "A", 8, 8⟩ ∧
    ("T" : String) = "T" ∧ ("C" : String) = "C" ∧ ("A" : String) = "A" :=
  c7_create_roundtrip (init_db freshDB 0) ⟨"T", "C", "A"⟩ 8
    ⟨4, "T", "C", "A", 8, 8⟩
    ⟨(init_db freshDB 0).rows ++ [⟨4, "T", "C", "A", 8, 8⟩], 5⟩
    (by decide) (by rfl)

/-- Claim C10: a field explicitly supplied as `null` parses exactly like an
absent field, so it is excluded from the field mask and the stored value is
untouched; a request whose three fields are all `null` (or absent) on an
existing id signals `InvalidArgument`. -/
theorem c10_null_as_absent :
    (∀ f : JsonField, parseOptField f = none ↔
      (f = JsonField.absent ∨ f = JsonField.null)) ∧
    (∀ c a : JsonField,
      parsePostUpdate JsonField.null c a = parsePostUpdate JsonField.absent c a) ∧
    (∀ t a : JsonField,
      parsePostUpdate t JsonField.null a = parsePostUpdate t JsonField.absent a) ∧
    (∀ t c : JsonField,
      parsePostUpdate t c JsonField.null = parsePostUpdate t c JsonField.absent) ∧
    (∀ (db : DB) (post_id : Nat) (p : Post) (t : Nat),
      findById db.rows post_id = some p →
      update_post db post_id
          (parsePostUpdate JsonField.null JsonField.null JsonField.null) t
        = Except.error ApiError.InvalidArgument) ∧
    (∀ (db : DB) (post_id : Nat) (u : PostUpdate) (t : Nat) (p q : Post) (db2 : DB),
      u.title = none →
      findById db.rows post_id = some p →
      update_post db post_id u t = Except.ok (q, db2) →
      q.title = p.title ∧ findById db2.rows post_id = some q) := by
  refine ⟨?_, fun c a => rfl, fun t a => rfl, fun t c => rfl, ?_, ?_⟩
  · intro f
    cases f <;> simp [parseOptField]
  · intro db post_id p t h
    exact update_post_empty db post_id _ t p h ⟨rfl, rfl, rfl⟩
  · intro db post_id u t p q db2 ht hfind hok
    by_cases hempty : u.title = none ∧ u.content = none ∧ u.author = none
    · rw [update_post_empty db post_id u t p hfind hempty] at hok
      cases hok
    · rw [update_post_ok db post_id u t p hfind hempty] at hok
      have hq : q = applyUpdate p u t := by
        cases hok
        rfl
      have hdb2 : db2 =
          ⟨db.rows.map fun r => if r.id == post_id then applyUpdate r u t else r,
           db.nextId⟩ := by
        cases hok
        rfl
      subst hq hdb2
      refine ⟨?_, findById_map_update db.rows post_id u t p hfind⟩
      simp [applyUpdate, ht]

/-- Claim C10 witness: a null-supplied title is dropped from the mask; an
all-null body on an existing id is rejected; a none title stays stored. -/
theorem c10_witness :
    (parseOptField JsonField.null = none ↔
      (JsonField.null = JsonField.absent ∨ JsonField.null = JsonField.null)) ∧
    update_post (init_db freshDB 0) 1
        (parsePostUpdate JsonField.null JsonField.null JsonField.null) 7
      = Except.error ApiError.InvalidArgument ∧
    ((⟨2, "Docker is Awesome", "C2", "DevOps Learner", 0, 9⟩ : Post).title
        = (⟨2, "Docker is Awesome",
            "Learning to containerize applications with Docker.",
            "DevOps Learner", 0, 0⟩ : Post).title ∧
      findById [⟨1, "Welcome to the Blog API",
          "This is your first blog post created automatically!", "System", 0, 0⟩,
        ⟨2, "Docker is Awesome", "C2", "DevOps Learner", 0, 9⟩,
        ⟨3, "AWS Deployment", "Taking our containerized app to the cloud!",
          "Cloud Engineer", 0, 0⟩] 2
        = some ⟨2, "Docker is Awesome", "C2", "DevOps Learner", 0, 9⟩) :=
  ⟨c10_null_as_absent.1 JsonField.null,
   c10_null_as_absent.2.2.2.2.1 (init_db freshDB 0) 1
     ⟨1, "Welcome to the Blog API",
      "This is your first blog post created automatically!", "System", 0, 0⟩
     7 (by decide),
   c10_null_as_absent.2.2.2.2.2 (init_db freshDB 0) 2
     ⟨none, some "C2", none⟩ 9
     ⟨2, "Docker is Awesome", "Learning to containerize applications with Docker.",
      "DevOps Learner", 0, 0⟩
     ⟨2, "Docker is Awesome", "C2", "DevOps Learner", 0, 9⟩
     ⟨[⟨1, "Welcome to the Blog API",
        "This is your first blog post created automatically!", "System", 0, 0⟩,
       ⟨2, "Docker is Awesome", "C2", "DevOps Learner", 0, 9⟩,
       ⟨3, "AWS Deployment", "Taking our containerized app to the cloud!",
        "Cloud Engineer", 0, 0⟩], 4⟩
     rfl (by decide) (by rfl)⟩

/-- Claim C4, counterexample: the claim asserts a newly inserted post is
first in any subsequent listing.  `CURRENT_TIMESTAMP` has second resolution,
so a post created in the same second as existing rows ties with them on
`created_at`, and `ORDER BY created_at DESC` then does not put the new row
first: creating a post on the seeded store (all seeds at instant 0) at
instant 0 succeeds, yet the head of the next listing is seeded post 1, not
the new post 4. -/
theorem c4_counterexample :
    create_post (init_db freshDB 0) ⟨"T", "C", "A"⟩ 0
      = Except.ok (⟨4, "T", "C", "A", 0, 0⟩,
          ⟨(init_db freshDB 0).rows ++ [⟨4, "T", "C", "A", 0, 0⟩], 5⟩) ∧
    (get_posts ⟨(init_db freshDB 0).rows ++ [⟨4, "T", "C", "A", 0, 0⟩], 5⟩).head?
      = some ⟨1, "Welcome to the Blog API",
          "This is your first blog post created automatically!", "System", 0, 0⟩ ∧
    (⟨1, "Welcome to the Blog API",
        "This is your first blog post created automatically!",
        "System", 0, 0⟩ : Post) ≠ (⟨4, "T", "C", "A", 0, 0⟩ : Post) := by
  refine ⟨by rfl, by rfl, by decide⟩

/-- Claim C4, amended: the listing contains every stored post exactly once (a
permutation of the table) and is sorted by `created_at` descending; it is
empty on an empty store; and a newly created post whose creation instant is
strictly later than every stored row's `created_at` is first in a subsequent
listing.  (On a tie — same-second inserts — the order among equal timestamps
is unspecified and the new post need not come first.) -/
theorem c4_get_posts_amended :
    (∀ db : DB, List.Perm (get_posts db) db.rows ∧ SortedDesc (get_posts db)) ∧
    (∀ n : Nat, get_posts ⟨[], n⟩ = []) ∧
    (∀ (db : DB) (pc : PostCreate) (t : Nat) (q : Post) (db2 : DB),
      (∀ r ∈ db.rows, r.id < db.nextId) →
      (∀ r ∈ db.rows, r.created_at < t) →
      create_post db pc t = Except.ok (q, db2) →
      (get_posts db2).head? = some q) := by
  refine ⟨fun db => ⟨sortByCreatedDesc_perm db.rows, sortByCreatedDesc_sorted db.rows⟩,
    fun n => rfl, ?_⟩
  intro db pc t q db2 hid hts hok
  rw [create_post_ok db pc t hid] at hok
  have hq : q = ⟨db.nextId, pc.title, pc.content, pc.author, t, t⟩ := by
    cases hok
    rfl
  have hdb2 : db2 =
      ⟨db.rows ++ [⟨db.nextId, pc.title, pc.content, pc.author, t, t⟩],
       db.nextId + 1⟩ := by
    cases hok
    rfl
  subst hq hdb2
  unfold get_posts
  apply sortByCreatedDesc_head_of_max
  · exact List.mem_append_right _ (List.mem_singleton.mpr rfl)
  · intro r hr hrne
    rcases List.mem_append.mp hr with h1 | h2
    · exact hts r h1
    · exact absurd (List.mem_singleton.mp h2) hrne

/-- Claim C4 witness: the seeded store lists as a sorted permutation of its
rows, the empty store lists empty, and a post created at instant 8 (strictly
after all seeds, stored at 0) heads the next listing. -/
theorem c4_witness :
    (List.Perm (get_posts (init_db freshDB 0)) (init_db freshDB 0).rows ∧
      SortedDesc (get_posts (init_db freshDB 0))) ∧
    get_posts ⟨[], 5⟩ = [] ∧
    (get_posts ⟨(init_db freshDB 0).rows ++ [⟨4, "T", "C", "A", 8, 8⟩], 5⟩).head?
      = some ⟨4, "T", "C", "A", 8, 8⟩ :=
  ⟨c4_get_posts_amended.1 (init_db freshDB 0),
   c4_get_posts_amended.2.1 5,
   c4_get_posts_amended.2.2 (init_db freshDB 0) ⟨"T", "C", "A"⟩ 8
     ⟨4, "T", "C", "A", 8, 8⟩
     ⟨(init_db freshDB 0).rows ++ [⟨4, "T", "C", "A", 8, 8⟩], 5⟩
     (by decide) (by decide) (by rfl)⟩

/-- Claim C8: initialization of an empty store inserts exactly the three seed
rows (literal titles "Welcome to the Blog API", "Docker is Awesome",
"AWS Deployment"), so the listing has length 3 and carries exactly the seed
field triples; initialization of a non-empty store inserts nothing. -/
theorem c8_init_seeds :
    (∀ (db : DB) (t : Nat), db.rows = [] →
      ((get_posts (init_db db t)).map fun p => (p.title, p.content, p.author)).Perm
        sample_posts ∧
      (get_posts (init_db db t)).length = 3) ∧
    (∀ (db : DB) (t : Nat), db.rows ≠ [] → init_db db t = db) := by
  constructor
  · intro db t hdb
    obtain ⟨rows, n⟩ := db
    simp only at hdb
    subst hdb
    have hrows : (init_db ⟨[], n⟩ t).rows =
        [⟨n, "Welcome to the Blog API",
          "This is your first blog post created automatically!", "System", t, t⟩,
         ⟨n + 1, "Docker is Awesome",
          "Learning to containerize applications with Docker.",
          "DevOps Learner", t, t⟩,
         ⟨n + 2, "AWS Deployment", "Taking our containerized app to the cloud!",
          "Cloud Engineer", t, t⟩] := rfl
    have hperm := (sortByCreatedDesc_perm (init_db ⟨[], n⟩ t).rows).map
      (fun p : Post => (p.title, p.content, p.author))
    constructor
    · refine hperm.trans ?_
      rw [hrows]
      exact List.Perm.refl _
    · have hlen := (sortByCreatedDesc_perm (init_db ⟨[], n⟩ t).rows).length_eq
      rw [get_posts, hlen, hrows]
      rfl
  · intro db t hdb
    unfold init_db
    rw [if_neg]
    simpa [List.length_eq_zero] using hdb

/-- Claim C8 witness. -/
theorem c8_witness :
    (((get_posts (init_db freshDB 5)).map fun p => (p.title, p.content, p.author)).Perm
        sample_posts ∧
      (get_posts (init_db freshDB 5)).length = 3) ∧
    init_db ⟨[⟨1, "x", "y", "z", 0, 0⟩], 2⟩ 9 = ⟨[⟨1, "x", "y", "z", 0, 0⟩], 2⟩ :=
  ⟨c8_init_seeds.1 freshDB 5 rfl,
   c8_init_seeds.2 ⟨[⟨1, "x", "y", "z", 0, 0⟩], 2⟩ 9 (by decide)⟩
